import Mathlib

/-!
A verification development for the dropterm terminal front end.

The definitions below are shallow embeddings of the Python source:

* `RexTerm.Widget` embeds the mode-tracking part of
  `ShellWidget.append_output` (alternate-screen markers, application
  keypad markers, history trimming) from `dropterm/shell_widget.py`.
* `RexTerm.Palette` embeds `ShellWidget._build_xterm_palette`.
* `RexTerm.Keys` embeds the special-key encoding of
  `ShellWidget.handle_key_press`.
* `RexTerm.Render` embeds `ShellWidget._render_screen` and its helpers.
* `RexTerm.Pump` embeds the buffering loop of `TerminalThread.run`
  from `dropterm/terminal_thread.py`.
* `RexTerm.Geom` embeds `TerminalEmulator.resize` and
  `ShellWidget.update_terminal_size`.

Machine-level details that the Python code leaves to collaborating
libraries (the pyte screen, the PTY transport, Qt) are represented by
explicit state fields and event parameters.
-/

namespace RexTerm

/-! ## String containment, as Python `in` -/

/-- Does `l` start with `p`?  Mirrors Python prefix matching used by `in`. -/
def listStarts : List Char → List Char → Bool
  | [], _ => true
  | _ :: _, [] => false
  | p :: ps, c :: cs => p == c && listStarts ps cs

/-- Does `hay` contain `pat` as a contiguous run?  Mirrors Python `pat in hay`. -/
def listHas : List Char → List Char → Bool
  | [], pat => pat.isEmpty
  | c :: t, pat => listStarts pat (c :: t) || listHas t pat

/-- `strContains s pat` mirrors the Python expression `pat in s`. -/
def strContains (s pat : String) : Bool :=
  listHas s.data pat.data

/-- `any(seq in text for seq in ms)` from `ShellWidget.append_output`. -/
def hasAnyMarker (text : String) (ms : List String) : Bool :=
  ms.any (fun m => strContains text m)

/-! ## Marker sets from `ShellWidget.append_output` (shell_widget.py:364-374) -/

def appOnMarkers : List String := ["\x1b[?1h", "\x1b[?66h"]

def appOffMarkers : List String := ["\x1b[?1l", "\x1b[?66l"]

def altEnterMarkers : List String := ["\x1b[?1049h", "\x1b[?47h", "\x1b[?1047h"]

def altExitMarkers : List String := ["\x1b[?1049l", "\x1b[?47l", "\x1b[?1047l"]

/-! ## History ledger

pyte's `HistoryScreen` keeps `history.top` and `history.bottom` as deques
with `maxlen = history_lines`; appending to a full deque evicts the oldest
(leftmost) row.  The widget trims with `pop()`, which removes the newest
(rightmost) row, modelled by `List.take`.
-/

/-- Append one row to a bounded deque (`collections.deque(maxlen=m)`):
a full deque drops its oldest element, a deque with `maxlen = 0` stays empty. -/
def addRow (maxLen : Nat) (l : List String) (r : String) : List String :=
  if maxLen = 0 then []
  else if maxLen ≤ l.length then l.tail ++ [r]
  else l ++ [r]

/-- Append a batch of rows (the rows pyte scrolls into history while
feeding one chunk). -/
def addRows (maxLen : Nat) (l : List String) (rs : List String) : List String :=
  rs.foldl (addRow maxLen) l

/-! ## Widget state and chunk processing -/

/-- The fields of `ShellWidget` (and its pyte `HistoryScreen`) that
`append_output` reads or writes for mode tracking. -/
structure WState where
  historyTop : List String
  historyBottom : List String
  maxHist : Nat
  inAlternateScreen : Bool
  altHistoryMarker : Option (Nat × Nat)
  applicationMode : Bool
  deriving Repr, DecidableEq

/-- One processed output chunk: the text handed to `append_output`, plus
the history rows that feeding those bytes to pyte scrolled into
`history.top` / `history.bottom` (the feed happens in
`TerminalEmulator.read`, before `append_output` runs). -/
structure Chunk where
  text : String
  newTop : List String
  newBottom : List String
  deriving Repr, DecidableEq

/-- The pyte side effect of a chunk: history rows are appended before the
widget inspects the text. -/
def feedHistory (s : WState) (c : Chunk) : WState :=
  { s with
    historyTop := addRows s.maxHist s.historyTop c.newTop
    historyBottom := addRows s.maxHist s.historyBottom c.newBottom }

/-- shell_widget.py:364-367 — application keypad mode detection.  The
`h` scan runs first, then the `l` scan. -/
def applyAppMarkers (text : String) (s : WState) : WState :=
  let s1 := if hasAnyMarker text appOnMarkers then { s with applicationMode := true } else s
  if hasAnyMarker text appOffMarkers then { s1 with applicationMode := false } else s1

/-- shell_widget.py:369-373 — alternate-screen entry.  The screen is
always a `HistoryScreen` (terminal_emulator.py:88), so the `isinstance`
guard always passes and the snapshot is always taken. -/
def applyAltEnter (text : String) (s : WState) : WState :=
  if hasAnyMarker text altEnterMarkers then
    { s with
      altHistoryMarker := some (s.historyTop.length, s.historyBottom.length)
      inAlternateScreen := true }
  else s

/-- shell_widget.py:374-383 — alternate-screen exit.  The `while len > n:
pop()` loops remove newest rows down to the snapshot lengths, which is
`List.take`; a `(0, 0)` snapshot is a truthy Python tuple, so `some` always
trims. -/
def applyAltExit (text : String) (s : WState) : WState :=
  if hasAnyMarker text altExitMarkers then
    let trimmed :=
      match s.altHistoryMarker with
      | some (topLen, bottomLen) =>
          (s.historyTop.take topLen, s.historyBottom.take bottomLen)
      | none => (s.historyTop, s.historyBottom)
    { s with
      historyTop := trimmed.1
      historyBottom := trimmed.2
      altHistoryMarker := none
      inAlternateScreen := false }
  else s

/-- Processing one chunk: pyte feed first, then — only for non-empty text
(`if text:`) — the marker cascade in source order. -/
def processChunk (s : WState) (c : Chunk) : WState :=
  let s0 := feedHistory s c
  if c.text = "" then s0
  else applyAltExit c.text (applyAltEnter c.text (applyAppMarkers c.text s0))

/-- `ShellWidget.__init__` (shell_widget.py:52,61-62): fresh history,
normal screen, no snapshot, normal keypad mode. -/
def initWState (maxHist : Nat) : WState :=
  { historyTop := []
    historyBottom := []
    maxHist := maxHist
    inAlternateScreen := false
    altHistoryMarker := none
    applicationMode := false }

/-- Processing a sequence of output chunks in order. -/
def runChunks (s : WState) (cs : List Chunk) : WState :=
  cs.foldl processChunk s

/-! ### Concrete inputs used to exercise the alternate-screen theorems -/

/-- A ledger with two above-rows and one below-row, capacity 5. -/
def sampleLedger : WState :=
  { historyTop := ["row a", "row b"]
    historyBottom := ["row c"]
    maxHist := 5
    inAlternateScreen := false
    altHistoryMarker := none
    applicationMode := false }

/-- A chunk holding only the alternate-screen entry marker. -/
def enterChunk : Chunk := { text := "\x1b[?1049h", newTop := [], newBottom := [] }

/-- A chunk of full-screen output that scrolls two rows above and one
below. -/
def bodyChunk : Chunk := { text := "full screen output", newTop := ["r1", "r2"], newBottom := ["r3"] }

/-- A chunk whose bytes end with the alternate-screen exit marker and
still scroll one more row. -/
def exitChunk : Chunk := { text := "bye\x1b[?1049l", newTop := ["r4"], newBottom := [] }

/-- A chunk carrying the exit marker textually before an entry marker. -/
def bothMarkersChunk : Chunk :=
  { text := "\x1b[?1049l middle \x1b[?47h", newTop := ["extra"], newBottom := [] }

end RexTerm

namespace RexTerm.Palette

/-- Lower-case hexadecimal digit, as used by Python `format(x, "02x")`. -/
def hexDigitChar (n : Nat) : Char :=
  if n < 10 then Char.ofNat (48 + n) else Char.ofNat (87 + n)

/-- Two lower-case hex digits (`f"{n:02x}"` for `n ≤ 255`). -/
def toHex2 (n : Nat) : String :=
  String.mk [hexDigitChar (n / 16 % 16), hexDigitChar (n % 16)]

/-- `f"#{r:02x}{g:02x}{b:02x}"`. -/
def hexColor (r g b : Nat) : String :=
  "#" ++ toHex2 r ++ toHex2 g ++ toHex2 b

/-- The 16 base colors of `_build_xterm_palette` (shell_widget.py:245-250). -/
def base16 : List (Nat × Nat × Nat) :=
  [(0, 0, 0), (205, 0, 0), (0, 205, 0), (205, 205, 0),
   (0, 0, 238), (205, 0, 205), (0, 205, 205), (229, 229, 229),
   (127, 127, 127), (255, 0, 0), (0, 255, 0), (255, 255, 0),
   (92, 92, 255), (255, 0, 255), (0, 255, 255), (255, 255, 255)]

/-- `steps = [0, 95, 135, 175, 215, 255]` (shell_widget.py:254). -/
def colorSteps : List Nat := [0, 95, 135, 175, 215, 255]

/-- `_build_xterm_palette` (shell_widget.py:243-266): the 16 base colors,
then the 6×6×6 cube at indices 16-231 (r outermost, b innermost), then the
24-step grayscale ramp at 232-255. -/
def buildXtermPalette : List (Nat × String) :=
  (base16.enum.map (fun p => (p.1, hexColor p.2.1 p.2.2.1 p.2.2.2)))
  ++ ((colorSteps.flatMap (fun r => colorSteps.flatMap (fun g => colorSteps.map (fun b => (r, g, b))))).enum.map
        (fun p => (16 + p.1, hexColor p.2.1 p.2.2.1 p.2.2.2)))
  ++ ((List.range 24).map (fun i => (232 + i, hexColor (8 + i * 10) (8 + i * 10) (8 + i * 10))))

/-- `self.xterm_palette.get(idx)`. -/
def xtermPalette (idx : Nat) : Option String :=
  buildXtermPalette.lookup idx

end RexTerm.Palette

namespace RexTerm.Keys

/-! ## Special-key encoding from `ShellWidget.handle_key_press`
(shell_widget.py:512-566). -/

/-- The arrow keys. -/
inductive ArrowKey
  | up
  | down
  | right
  | left
  deriving Repr, DecidableEq

/-- The Qt modifier bits the encoder consults (Shift, Alt, Ctrl; Meta is
never examined by `modifier_param`). -/
structure KeyMods where
  shift : Bool
  alt : Bool
  ctrl : Bool
  deriving Repr, DecidableEq

/-- No modifier held. -/
def noMods : KeyMods := ⟨false, false, false⟩

/-- `modifier_param` (shell_widget.py:512-520): start at 1, add 1 for
Shift, 2 for Alt, 4 for Ctrl; `None` for the trivial combination. -/
def modifierParam (m : KeyMods) : Option Nat :=
  let param := 1 + (if m.shift then 1 else 0) + (if m.alt then 2 else 0)
      + (if m.ctrl then 4 else 0)
  if param = 1 then none else some param

/-- `csi_with_mod` (shell_widget.py:522-526). -/
def csiWithMod (m : KeyMods) (baseLetter : String) : String :=
  match modifierParam m with
  | some p => "\x1b[1;" ++ Nat.repr p ++ baseLetter
  | none => "\x1b[" ++ baseLetter

/-- `arrow_map_app` (shell_widget.py:528-533). -/
def arrowMapApp : ArrowKey → String
  | .up => "\x1bOA"
  | .down => "\x1bOB"
  | .right => "\x1bOC"
  | .left => "\x1bOD"

/-- `arrow_map_normal` (shell_widget.py:535-540). -/
def arrowMapNormal : ArrowKey → String
  | .up => "A"
  | .down => "B"
  | .right => "C"
  | .left => "D"

/-- Arrow-key handling (shell_widget.py:542-550): the bytes written to the
terminal for an arrow key, given `self.application_mode`. -/
def encodeArrowKey (applicationMode : Bool) (m : KeyMods) (k : ArrowKey) : String :=
  if applicationMode then arrowMapApp k else csiWithMod m (arrowMapNormal k)

/-- Home-key handling (shell_widget.py:553-559). -/
def encodeHomeKey (applicationMode : Bool) (m : KeyMods) : String :=
  if applicationMode then "\x1bOH" else csiWithMod m "H"

/-- End-key handling (shell_widget.py:560-566). -/
def encodeEndKey (applicationMode : Bool) (m : KeyMods) : String :=
  if applicationMode then "\x1bOF" else csiWithMod m "F"

end RexTerm.Keys

namespace RexTerm.Render

/-! ## Output rendering from `ShellWidget._render_screen`,
`_render_line`, `_style_for_char`, `_css_color`
(shell_widget.py:199-354). -/

/-- A pyte character cell: the glyph plus the attributes
`_style_for_char` reads.  `data` is `Option` because `_render_line`
guards `char.data is not None`. -/
structure TChar where
  data : Option Char
  fg : String
  bg : String
  bold : Bool
  italics : Bool
  underscore : Bool
  reverse : Bool
  conceal : Bool

/-- Is `c` one of `0-9a-fA-F` (the `[0-9a-fA-F]{6}` pattern)? -/
def isHexDigitChar (c : Char) : Bool :=
  c.isDigit || ('a' ≤ c && c ≤ 'f') || ('A' ≤ c && c ≤ 'F')

/-- `_css_color` (shell_widget.py:199-219) for pyte string color values:
`""`/`"default"` resolve to nothing, decimal strings up to 255 go through
the xterm palette (larger ones fall through), `#rrggbb` and bare 6-digit
hex are passed on lower-cased, anything else consults `color_map`. -/
def cssColor (colorMap : List (String × String)) (v : String) : Option String :=
  if v = "" || v = "default" then none
  else if v.data.all Char.isDigit ∧ (v.toNat?.getD 0) ≤ 255 then
    Palette.xtermPalette (v.toNat?.getD 0)
  else if v.startsWith "#" ∧ v.length = 7 then some (v.map Char.toLower)
  else if v.length = 6 ∧ v.data.all isHexDigitChar then
    some ("#" ++ v.map Char.toLower)
  else colorMap.lookup v

/-- `self.color_map` (shell_widget.py:78-99). -/
def defaultColorMap : List (String × String) :=
  [("black", "#000000"), ("red", "#cc0000"), ("green", "#009900"),
   ("yellow", "#999900"), ("brown", "#999900"), ("blue", "#0000cc"),
   ("magenta", "#cc00cc"), ("cyan", "#009999"), ("white", "#cccccc"),
   ("lightgray", "#cccccc"), ("lightgrey", "#cccccc"),
   ("brightblack", "#555555"), ("brightred", "#ff5555"),
   ("brightgreen", "#55ff55"), ("brightyellow", "#ffff55"),
   ("brightbrown", "#ffff55"), ("brightblue", "#5555ff"),
   ("brightmagenta", "#ff55ff"), ("brightcyan", "#55ffff"),
   ("brightwhite", "#ffffff")]

/-- `_style_for_char` (shell_widget.py:221-241). -/
def styleForChar (ch : TChar) : String :=
  let fg0 := cssColor defaultColorMap ch.fg
  let bg0 := cssColor defaultColorMap ch.bg
  let fg := if ch.reverse then bg0 else fg0
  let bg := if ch.reverse then fg0 else bg0
  let styles : List String :=
    (match fg with | some f => ["color:" ++ f] | none => [])
    ++ (match bg with | some b => ["background-color:" ++ b] | none => [])
    ++ (if ch.conceal then ["color: transparent"] else [])
    ++ (if ch.bold then ["font-weight:bold"] else [])
    ++ (if ch.italics then ["font-style:italic"] else [])
    ++ (if ch.underscore then ["text-decoration: underline"] else [])
  String.intercalate ";" styles

/-- Python `html.escape` (quote=True), applied per character. -/
def htmlEscapeChar (c : Char) : String :=
  if c = '&' then "&amp;"
  else if c = '<' then "&lt;"
  else if c = '>' then "&gt;"
  else if c = '"' then "&quot;"
  else if c = '\'' then "&#x27;"
  else String.mk [c]

/-- The accumulator of `_render_line`: collected plain characters, HTML
fragments (in reverse), and the currently open span style. -/
structure LineAcc where
  plainRev : List Char
  htmlRev : List String
  currentStyle : Option String

/-- One column of the `_render_line` loop (shell_widget.py:273-309). -/
def renderCell (baseFg baseBg : String) (cursorCol : Option Nat)
    (line : Nat → TChar) (acc : LineAcc) (col : Nat) : LineAcc :=
  let char := line col
  let ch := char.data.getD ' '
  let isCursorCell := cursorCol = some col
  let style0 := styleForChar char
  let style : Option String := if style0 = "" then none else some style0
  if isCursorCell then
    let closing : List String :=
      match acc.currentStyle with
      | some _ => ["</span>"]
      | none => []
    let baseParts := (style0.splitOn ";").filter
      (fun part => part ≠ "" && !part.startsWith "color:" && !part.startsWith "background-color:")
    let fg := (cssColor defaultColorMap char.fg).getD baseFg
    let bg := (cssColor defaultColorMap char.bg).getD baseBg
    let cursorStyles := baseParts ++ ["background-color:" ++ fg, "color:" ++ bg]
    let cursorChar := if ch = ' ' then ' ' else ch
    { plainRev := ch :: acc.plainRev
      htmlRev := "</span>" :: htmlEscapeChar cursorChar
          :: ("<span class=\"cursor-block\" style=\"" ++ String.intercalate ";" cursorStyles ++ "\">")
          :: closing ++ acc.htmlRev
      currentStyle := none }
  else
    let (switch, newStyle) :=
      if style = acc.currentStyle then (([] : List String), acc.currentStyle)
      else
        let closing : List String :=
          match acc.currentStyle with
          | some _ => ["</span>"]
          | none => []
        let opening : List String :=
          match style with
          | some st => ["<span style=\"" ++ st ++ "\">"]
          | none => []
        (opening ++ closing, style)
    { plainRev := ch :: acc.plainRev
      htmlRev := htmlEscapeChar ch :: switch ++ acc.htmlRev
      currentStyle := newStyle }

/-- `_render_line` (shell_widget.py:268-316): returns the plain text and
the HTML of one line. -/
def renderLine (columns : Nat) (baseFg baseBg : String)
    (line : Nat → TChar) (cursorCol : Option Nat) : String × String :=
  let acc := (List.range columns).foldl (renderCell baseFg baseBg cursorCol line)
    { plainRev := [], htmlRev := [], currentStyle := none }
  let closing : List String :=
    match acc.currentStyle with
    | some _ => ["</span>"]
    | none => []
  (String.mk acc.plainRev.reverse,
   String.join (closing ++ acc.htmlRev).reverse)

/-- The screen state `_render_screen` reads: the pyte grid, history,
cursor, and the widget's alternate-screen flag.  The screen is always a
`HistoryScreen` (terminal_emulator.py:88). -/
structure ScreenState where
  lines : Nat
  columns : Nat
  buffer : Nat → Nat → TChar
  historyTop : List (Nat → TChar)
  historyBottom : List (Nat → TChar)
  cursor : Option (Nat × Nat)
  inAlternateScreen : Bool

/-- `_render_screen` (shell_widget.py:318-354): assemble
`history.top ++ grid ++ history.bottom` in the live view (grid only in
alternate-screen mode), place the cursor at `len(history.top) + cursor.y`
(suppressed when out of bounds), render every line, and join with
newlines. -/
def renderScreen (baseFg baseBg : String) (st : ScreenState) : String × String :=
  let historyActive := !st.inAlternateScreen
  let sources0 : List (Nat → TChar) := if historyActive then st.historyTop else []
  let cursorRowOffset := if historyActive then st.historyTop.length else 0
  let cursorCol0 : Option Nat := st.cursor.map (fun c => c.1)
  let cursorLineIndex0 : Option Nat := st.cursor.map (fun c => cursorRowOffset + c.2)
  let sources1 := sources0 ++ (List.range st.lines).map (fun r => st.buffer r)
  let sources2 := sources1
      ++ (if historyActive && !st.historyBottom.isEmpty then st.historyBottom else [])
  let (cursorLineIndex, cursorCol) :=
    match cursorLineIndex0 with
    | some i => if sources2.length ≤ i then (none, none) else (some i, cursorCol0)
    | none => (none, none)
  let rendered := sources2.enum.map (fun p =>
    renderLine st.columns baseFg baseBg p.2
      (if cursorLineIndex = some p.1 then cursorCol else none))
  (String.intercalate "\n" (rendered.map (fun p => p.1)),
   String.intercalate "\n" (rendered.map (fun p => p.2)))

/-- The `_render_screen` call as a state transition: the method reads the
screen state and assigns no field of it, so the state it leaves behind is
its input, paired with the rendered output. -/
def renderScreenCall (baseFg baseBg : String) (st : ScreenState) :
    ScreenState × (String × String) :=
  (st, renderScreen baseFg baseBg st)

end RexTerm.Render

namespace RexTerm.Pump

/-! ## The output pump from `TerminalThread.run`
(terminal_thread.py:21-67).  Time is modelled in microseconds. -/

/-- `self.buffer_time_threshold = 0.005` (terminal_thread.py:17). -/
def bufferTimeThreshold : Nat := 5000

/-- `self.buffer_size_threshold = 512` (terminal_thread.py:19). -/
def bufferSizeThreshold : Nat := 512

/-- The `0.003` burst threshold (terminal_thread.py:40). -/
def burstTimeThreshold : Nat := 3000

/-- The flush decision of one loop body (terminal_thread.py:36-44),
evaluated after appending freshly read output: the adjusted threshold
shrinks when the buffer holds more than half the size threshold
(`len > 512/2`, i.e. `2·len > 512`), and a flush fires on the size
threshold or on enough time since the last emit. -/
def flushCheck (bufLen lastEmit now : Nat) : Bool :=
  let adjusted :=
    if bufferSizeThreshold < 2 * bufLen then min bufferTimeThreshold burstTimeThreshold
    else bufferTimeThreshold
  (bufferSizeThreshold ≤ bufLen) || (adjusted ≤ now - lastEmit)

/-- What `self.terminal.read(1024)` did this iteration: it returned a
string, possibly clearing `terminal.running` (its internal error path
prints, sets `running = False` and returns `''`), or an exception escaped
into the pump's `try` body. -/
inductive ReadResult
  | out (s : String) (stillRunning : Bool)
  | exc
  deriving Repr, DecidableEq

/-- One pump iteration as seen from outside: the `isalive()` sample, the
read outcome, and the `time.time()` sample (microseconds). -/
structure PumpEvent where
  alive : Bool
  res : ReadResult
  now : Nat
  deriving Repr, DecidableEq

/-- The pump state across iterations: `self.output_buffer`,
`last_emit_time`, and `self.terminal.running`. -/
structure PumpState where
  buffer : String
  lastEmitTime : Nat
  termRunning : Bool
  deriving Repr, DecidableEq

/-- What the pump does that the rest of the program observes: an
`output_received` emission or the process-exit callback. -/
inductive PumpAct
  | emit (s : String)
  | exitCb
  deriving Repr, DecidableEq

/-- The `while self.running and self.terminal.running` loop
(terminal_thread.py:24-56).  `self.running` stays true while no `stop`
call intervenes; the event list ending models the loop being stopped.
An exception flushes a non-empty buffer and breaks; a dead process
breaks; otherwise output is appended and the flush condition evaluated. -/
def pumpLoop : List PumpEvent → PumpState → PumpState × List PumpAct
  | [], st => (st, [])
  | e :: rest, st =>
    if !st.termRunning then (st, [])
    else if !e.alive then (st, [])
    else
      match e.res with
      | .exc =>
          if st.buffer ≠ "" then ({ st with buffer := "" }, [.emit st.buffer])
          else (st, [])
      | .out s stillRunning =>
          let st1 := { st with termRunning := st.termRunning && stillRunning }
          if s = "" then pumpLoop rest st1
          else
            let buf := st1.buffer ++ s
            if flushCheck buf.length st1.lastEmitTime e.now then
              let next := pumpLoop rest { st1 with buffer := "", lastEmitTime := e.now }
              (next.1, .emit buf :: next.2)
            else
              pumpLoop rest { st1 with buffer := buf }

/-- A full pump run (terminal_thread.py:21-67): the loop, the final
unconditional flush of a non-empty remainder (lines 58-61), then the
exit-callback check (lines 63-65), which fires only when `isalive()` is
false at that point and a callback is registered. -/
def pumpRun (events : List PumpEvent) (st0 : PumpState)
    (aliveAtEnd : Bool) (cbRegistered : Bool) : List PumpAct :=
  let r := pumpLoop events st0
  (r.2 ++ (if r.1.buffer ≠ "" then [.emit r.1.buffer] else []))
  ++ (if aliveAtEnd = false ∧ cbRegistered = true then [.exitCb] else [])

/-! ### The read-only schedule view used for the liveness analysis

For the liveness claim the interesting schedules are sequences of
successful reads; `pumpReads` is `pumpLoop` restricted to such events,
instrumented with the arrival time of the first unflushed byte so that
each flush can report its latency. -/

/-- A flush, with the time it happened and the arrival time of the oldest
byte it carried. -/
structure FlushRec where
  flushTime : Nat
  firstByteTime : Nat
  deriving Repr, DecidableEq

/-- `pumpReads sched (buf, lastEmit, firstT)` runs the loop body of
`TerminalThread.run` over timed reads `(now, s)`, recording every flush.
`firstT` instruments the state with the arrival time of the first
unflushed byte; `buf` tracks `len(self.output_buffer)`. -/
def pumpReads : List (Nat × String) → Nat × Nat × Option Nat → List FlushRec
  | [], _ => []
  | (t, s) :: rest, (buf, lastEmit, firstT) =>
    if s = "" then pumpReads rest (buf, lastEmit, firstT)
    else
      let buf1 := buf + s.length
      let firstT1 := firstT.getD t
      if flushCheck buf1 lastEmit t then
        ⟨t, firstT1⟩ :: pumpReads rest (0, t, none)
      else
        pumpReads rest (buf1, lastEmit, some firstT1)

/-- The schedule family of the liveness claim: single-byte reads at
strictly increasing times, consecutive reads (and the first read after
the loop start) spaced less than the time threshold apart. -/
def validSchedule : Nat → List (Nat × String) → Bool
  | _, [] => true
  | prev, (t, s) :: rest =>
    decide (prev < t) && decide (t - prev < bufferTimeThreshold)
      && (s.length == 1) && validSchedule t rest

/-- A schedule refuting the headline latency bound: a byte arrives just
after a flush and the following reads each stay inside the threshold. -/
def starvedSchedule : List (Nat × String) :=
  [(100, "a"), (4990, "b"), (9880, "c")]

/-- A run in which one byte is buffered and then the read path fails
while the process is still alive: `terminal.read` returns `''` after
setting `terminal.running = False` (its internal error branch), and the
loop condition ends the run. -/
def readErrorEvents : List PumpEvent :=
  [⟨true, .out "x" true, 100⟩, ⟨true, .out "" false, 101⟩]

/-- The pump state at loop entry: empty buffer, `last_emit_time` taken at
start, terminal running. -/
def pumpStart : PumpState := ⟨"", 0, true⟩

/-- Mapping a timed read onto a healthy pump iteration (alive process,
successful read). -/
def readEvent (p : Nat × String) : PumpEvent := ⟨true, .out p.2 true, p.1⟩

end RexTerm.Pump

namespace RexTerm.Geom

/-! ## Geometry synchronisation from `TerminalEmulator.resize`
(terminal_emulator.py:238-260) and `ShellWidget.update_terminal_size`
(shell_widget.py:135-152). -/

/-- The cached dimensions of `TerminalEmulator` together with the sizes
its two collaborators (the PTY and the pyte screen) actually hold. -/
structure TermGeom where
  cols : Nat
  rows : Nat
  ptyCols : Nat
  ptyRows : Nat
  screenCols : Nat
  screenRows : Nat
  deriving Repr, DecidableEq

/-- `TerminalEmulator.resize` (terminal_emulator.py:238-260): the cached
`self.cols`/`self.rows` are assigned first; the PTY `setwinsize` and the
pyte `screen.resize` follow, each in its own `try` whose failure is only
printed.  `ptyOk`/`screenOk` say whether those calls succeeded. -/
def termResize (s : TermGeom) (c r : Nat) (ptyOk screenOk : Bool) : TermGeom :=
  { cols := c
    rows := r
    ptyCols := if ptyOk then c else s.ptyCols
    ptyRows := if ptyOk then r else s.ptyRows
    screenCols := if screenOk then c else s.screenCols
    screenRows := if screenOk then r else s.screenRows }

/-- `new_cols = max(2, viewport.width() // char_width - 1)` with
`char_width = max(1, metrics)` (shell_widget.py:143-147).  Python floor
division minus one can reach `-1`; the `max 2` clamp makes the truncated
Nat subtraction agree with it. -/
def computeNewCols (viewportWidth charWidth : Nat) : Nat :=
  max 2 (viewportWidth / max 1 charWidth - 1)

/-- `new_rows = max(2, viewport.height() // char_height)`
(shell_widget.py:148). -/
def computeNewRows (viewportHeight charHeight : Nat) : Nat :=
  max 2 (viewportHeight / max 1 charHeight)

/-- `ShellWidget.update_terminal_size` (shell_widget.py:135-152): bail
out on an empty viewport, recompute the wanted dimensions, and resize
only when they differ from the cached `terminal.cols`/`terminal.rows`. -/
def updateTerminalSize (s : TermGeom) (vw vh cw ch : Nat)
    (ptyOk screenOk : Bool) : TermGeom :=
  if vw = 0 ∨ vh = 0 then s
  else
    let nc := computeNewCols vw cw
    let nr := computeNewRows vh ch
    if nc ≠ s.cols ∨ nr ≠ s.rows then termResize s nc nr ptyOk screenOk else s

end RexTerm.Geom

namespace RexTerm

/-! ## Lemmas about the history ledger -/

theorem addRow_bounds (m : Nat) (l : List String) (r : String) (h : l.length ≤ m) :
    (addRow m l r).length ≤ m ∧ l.length ≤ (addRow m l r).length := by
  unfold addRow
  split
  · simp only [List.length_nil]
    omega
  · rename_i hm
    split
    · rename_i hfull
      simp only [List.length_append, List.length_tail, List.length_cons, List.length_nil]
      omega
    · simp only [List.length_append, List.length_cons, List.length_nil]
      omega

theorem addRows_cons (m : Nat) (l : List String) (r : String) (rs : List String) :
    addRows m l (r :: rs) = addRows m (addRow m l r) rs := rfl

theorem addRows_bounds (m : Nat) (rs : List String) :
    ∀ (l : List String), l.length ≤ m →
      (addRows m l rs).length ≤ m ∧ l.length ≤ (addRows m l rs).length := by
  induction rs with
  | nil =>
    intro l h
    exact ⟨h, Nat.le_refl _⟩
  | cons r rs ih =>
    intro l h
    have hb := addRow_bounds m l r h
    have ht := ih (addRow m l r) hb.1
    rw [addRows_cons]
    exact ⟨ht.1, Nat.le_trans hb.2 ht.2⟩

/-! ## Field lemmas for the marker cascade -/

theorem feedHistory_flags (s : WState) (c : Chunk) :
    (feedHistory s c).inAlternateScreen = s.inAlternateScreen ∧
    (feedHistory s c).altHistoryMarker = s.altHistoryMarker ∧
    (feedHistory s c).maxHist = s.maxHist := ⟨rfl, rfl, rfl⟩

theorem applyAppMarkers_fields (t : String) (s : WState) :
    (applyAppMarkers t s).inAlternateScreen = s.inAlternateScreen ∧
    (applyAppMarkers t s).altHistoryMarker = s.altHistoryMarker ∧
    (applyAppMarkers t s).historyTop = s.historyTop ∧
    (applyAppMarkers t s).historyBottom = s.historyBottom ∧
    (applyAppMarkers t s).maxHist = s.maxHist := by
  simp only [applyAppMarkers]
  split <;> split <;> exact ⟨rfl, rfl, rfl, rfl, rfl⟩

theorem applyAltEnter_pos (t : String) (s : WState)
    (h : hasAnyMarker t altEnterMarkers = true) :
    applyAltEnter t s =
      { s with
        altHistoryMarker := some (s.historyTop.length, s.historyBottom.length)
        inAlternateScreen := true } := by
  simp only [applyAltEnter, h, if_true]

theorem applyAltEnter_neg (t : String) (s : WState)
    (h : hasAnyMarker t altEnterMarkers = false) :
    applyAltEnter t s = s := by
  simp only [applyAltEnter, h]
  rfl

theorem applyAltExit_pos_some (t : String) (s : WState) (tl bl : Nat)
    (h : hasAnyMarker t altExitMarkers = true)
    (hm : s.altHistoryMarker = some (tl, bl)) :
    applyAltExit t s =
      { s with
        historyTop := s.historyTop.take tl
        historyBottom := s.historyBottom.take bl
        altHistoryMarker := none
        inAlternateScreen := false } := by
  simp only [applyAltExit, h, if_true, hm]

theorem applyAltExit_neg (t : String) (s : WState)
    (h : hasAnyMarker t altExitMarkers = false) :
    applyAltExit t s = s := by
  simp only [applyAltExit, h]
  rfl

theorem applyAltExit_flags (t : String) (s : WState)
    (h : hasAnyMarker t altExitMarkers = true) :
    (applyAltExit t s).inAlternateScreen = false ∧
    (applyAltExit t s).altHistoryMarker = none := by
  simp [applyAltExit, h]

/-- A text containing an entry marker is not empty. -/
theorem enter_text_ne_empty (t : String) (h : hasAnyMarker t altEnterMarkers = true) :
    ¬ t = "" := by
  intro he
  subst he
  exact absurd h (by decide)

/-- A text containing an exit marker is not empty. -/
theorem exit_text_ne_empty (t : String) (h : hasAnyMarker t altExitMarkers = true) :
    ¬ t = "" := by
  intro he
  subst he
  exact absurd h (by decide)

/-! ## The mode-tracker invariant -/

theorem processChunk_flag_marker (s : WState) (c : Chunk)
    (h : s.inAlternateScreen = s.altHistoryMarker.isSome) :
    (processChunk s c).inAlternateScreen = (processChunk s c).altHistoryMarker.isSome := by
  simp only [processChunk]
  split
  · exact h
  · have h0 : (feedHistory s c).inAlternateScreen = (feedHistory s c).altHistoryMarker.isSome := h
    set s0 := feedHistory s c with hs0
    have ha := applyAppMarkers_fields c.text s0
    by_cases hx : hasAnyMarker c.text altExitMarkers
    · have := applyAltExit_flags c.text (applyAltEnter c.text (applyAppMarkers c.text s0)) hx
      rw [this.1, this.2]
      rfl
    · rw [applyAltExit_neg c.text _ (by simpa using hx)]
      by_cases he : hasAnyMarker c.text altEnterMarkers
      · rw [applyAltEnter_pos c.text _ he]
        rfl
      · rw [applyAltEnter_neg c.text _ (by simpa using he)]
        rw [ha.1, ha.2.1, h0]

theorem runChunks_flag_marker (cs : List Chunk) :
    ∀ (s : WState), s.inAlternateScreen = s.altHistoryMarker.isSome →
      (runChunks s cs).inAlternateScreen = (runChunks s cs).altHistoryMarker.isSome := by
  induction cs with
  | nil => intro s h; exact h
  | cons c cs ih =>
    intro s h
    exact ih (processChunk s c) (processChunk_flag_marker s c h)

/-- C4: in every state reachable from the fresh widget state by processed
output chunks, the alternate-screen flag is set exactly when the
history-bounds snapshot exists: neither is ever set or cleared without
the other. -/
theorem modeTracker_snapshot_invariant (maxHist : Nat) (cs : List Chunk) :
    ((runChunks (initWState maxHist) cs).inAlternateScreen = true ↔
      (runChunks (initWState maxHist) cs).altHistoryMarker.isSome = true) := by
  rw [runChunks_flag_marker cs (initWState maxHist) rfl]

/-- C10: a single chunk carrying both an entry and an exit marker leaves
alternate-screen mode off and the snapshot cleared, whatever the order of
the two markers inside the chunk, because the entry scan runs before the
exit scan. -/
theorem bothMarkers_exit_wins (s : WState) (c : Chunk)
    (hIn : hasAnyMarker c.text altEnterMarkers = true)
    (hOut : hasAnyMarker c.text altExitMarkers = true) :
    (processChunk s c).inAlternateScreen = false ∧
    (processChunk s c).altHistoryMarker = none := by
  have hne := enter_text_ne_empty c.text hIn
  simp only [processChunk, if_neg hne]
  exact applyAltExit_flags c.text _ hOut

/-- Witness for C10: the concrete chunk whose exit marker textually
precedes its entry marker still ends with the flag and snapshot cleared. -/
theorem bothMarkers_exit_wins_witness :
    hasAnyMarker bothMarkersChunk.text altEnterMarkers = true ∧
    hasAnyMarker bothMarkersChunk.text altExitMarkers = true ∧
    ((processChunk sampleLedger bothMarkersChunk).inAlternateScreen = false ∧
      (processChunk sampleLedger bothMarkersChunk).altHistoryMarker = none) :=
  ⟨by decide, by decide,
    bothMarkers_exit_wins sampleLedger bothMarkersChunk (by decide) (by decide)⟩

/-! ## The alternate-screen round trip -/

theorem runChunks_cons (s : WState) (c : Chunk) (cs : List Chunk) :
    runChunks s (c :: cs) = runChunks (processChunk s c) cs := rfl

/-- Entering the alternate screen with a pure marker chunk keeps the
ledger and snapshots its current bounds. -/
theorem processChunk_enter (s : WState) (e : Chunk)
    (hPureT : e.newTop = []) (hPureB : e.newBottom = [])
    (heIn : hasAnyMarker e.text altEnterMarkers = true)
    (heNoOut : hasAnyMarker e.text altExitMarkers = false) :
    (processChunk s e).historyTop = s.historyTop ∧
    (processChunk s e).historyBottom = s.historyBottom ∧
    (processChunk s e).maxHist = s.maxHist ∧
    (processChunk s e).altHistoryMarker =
      some (s.historyTop.length, s.historyBottom.length) := by
  have hne := enter_text_ne_empty e.text heIn
  have hfeed : feedHistory s e = s := by
    simp [feedHistory, hPureT, hPureB, addRows]
  simp only [processChunk, if_neg hne, hfeed]
  rw [applyAltExit_neg _ _ heNoOut, applyAltEnter_pos _ _ heIn]
  have ha := applyAppMarkers_fields e.text s
  exact ⟨ha.2.2.1, ha.2.2.2.1, ha.2.2.2.2, by rw [ha.2.2.1, ha.2.2.2.1]⟩

/-- A chunk with no alternate-screen marker only appends rows: the
snapshot and the capacity are untouched. -/
theorem processChunk_noAlt (t : WState) (c : Chunk)
    (hIn : hasAnyMarker c.text altEnterMarkers = false)
    (hOut : hasAnyMarker c.text altExitMarkers = false) :
    (processChunk t c).historyTop = addRows t.maxHist t.historyTop c.newTop ∧
    (processChunk t c).historyBottom = addRows t.maxHist t.historyBottom c.newBottom ∧
    (processChunk t c).maxHist = t.maxHist ∧
    (processChunk t c).altHistoryMarker = t.altHistoryMarker := by
  simp only [processChunk]
  split
  · exact ⟨rfl, rfl, rfl, rfl⟩
  · rw [applyAltExit_neg _ _ hOut, applyAltEnter_neg _ _ hIn]
    have ha := applyAppMarkers_fields c.text (feedHistory t c)
    exact ⟨ha.2.2.1, ha.2.2.2.1, ha.2.2.2.2, ha.2.1⟩

/-- Over marker-free chunks the snapshot and capacity persist, and the
ledger lengths never drop below their starting values nor exceed the
capacity. -/
theorem runChunks_noAlt (cs : List Chunk) :
    ∀ (t : WState),
      (∀ c ∈ cs, hasAnyMarker c.text altEnterMarkers = false ∧
        hasAnyMarker c.text altExitMarkers = false) →
      t.historyTop.length ≤ t.maxHist →
      t.historyBottom.length ≤ t.maxHist →
      (runChunks t cs).altHistoryMarker = t.altHistoryMarker ∧
      (runChunks t cs).maxHist = t.maxHist ∧
      t.historyTop.length ≤ (runChunks t cs).historyTop.length ∧
      (runChunks t cs).historyTop.length ≤ t.maxHist ∧
      t.historyBottom.length ≤ (runChunks t cs).historyBottom.length ∧
      (runChunks t cs).historyBottom.length ≤ t.maxHist := by
  induction cs with
  | nil =>
    intro t _ h1 h2
    exact ⟨rfl, rfl, Nat.le_refl _, h1, Nat.le_refl _, h2⟩
  | cons c cs ih =>
    intro t hm h1 h2
    have hc := hm c (List.mem_cons_self c cs)
    have hp := processChunk_noAlt t c hc.1 hc.2
    have hbT := addRows_bounds t.maxHist c.newTop t.historyTop h1
    have hbB := addRows_bounds t.maxHist c.newBottom t.historyBottom h2
    have h1' : (processChunk t c).historyTop.length ≤ (processChunk t c).maxHist := by
      rw [hp.1, hp.2.2.1]
      exact hbT.1
    have h2' : (processChunk t c).historyBottom.length ≤ (processChunk t c).maxHist := by
      rw [hp.2.1, hp.2.2.1]
      exact hbB.1
    have ihr := ih (processChunk t c)
      (fun d hd => hm d (List.mem_cons_of_mem c hd)) h1' h2'
    rw [runChunks_cons]
    refine ⟨ihr.1.trans hp.2.2.2, ihr.2.1.trans hp.2.2.1, ?_, ?_, ?_, ?_⟩
    · refine Nat.le_trans ?_ ihr.2.2.1
      rw [hp.1]
      exact hbT.2
    · exact ihr.2.2.2.1.trans_eq hp.2.2.1
    · refine Nat.le_trans ?_ ihr.2.2.2.2.1
      rw [hp.2.1]
      exact hbB.2
    · exact ihr.2.2.2.2.2.trans_eq hp.2.2.1

/-- Exiting the alternate screen appends the chunk rows and then trims
both ledgers back to the snapshot bounds. -/
theorem processChunk_exit (t : WState) (x : Chunk) (tl bl : Nat)
    (hOut : hasAnyMarker x.text altExitMarkers = true)
    (hNoIn : hasAnyMarker x.text altEnterMarkers = false)
    (hm : t.altHistoryMarker = some (tl, bl)) :
    (processChunk t x).historyTop = (addRows t.maxHist t.historyTop x.newTop).take tl ∧
    (processChunk t x).historyBottom =
      (addRows t.maxHist t.historyBottom x.newBottom).take bl ∧
    (processChunk t x).altHistoryMarker = none ∧
    (processChunk t x).inAlternateScreen = false := by
  have hne := exit_text_ne_empty x.text hOut
  simp only [processChunk, if_neg hne]
  rw [applyAltEnter_neg _ _ hNoIn]
  have ha := applyAppMarkers_fields x.text (feedHistory t x)
  rw [applyAltExit_pos_some _ _ tl bl hOut (ha.2.1.trans hm)]
  refine ⟨?_, ?_, rfl, rfl⟩
  · rw [ha.2.2.1]
    rfl
  · rw [ha.2.2.2.1]
    rfl

/-- C1: starting from any ledger with N above-rows and M below-rows
(within capacity), processing a pure entry-marker chunk, then any chunks
that only append rows, then a chunk carrying the exit marker, leaves
exactly N above-rows and M below-rows, with the snapshot cleared and the
alternate-screen flag off. -/
theorem altScreen_roundTrip (s : WState) (e : Chunk) (mid : List Chunk) (x : Chunk)
    (hTopLe : s.historyTop.length ≤ s.maxHist)
    (hBotLe : s.historyBottom.length ≤ s.maxHist)
    (hePureT : e.newTop = []) (hePureB : e.newBottom = [])
    (heIn : hasAnyMarker e.text altEnterMarkers = true)
    (heNoOut : hasAnyMarker e.text altExitMarkers = false)
    (hMid : ∀ c ∈ mid, hasAnyMarker c.text altEnterMarkers = false ∧
      hasAnyMarker c.text altExitMarkers = false)
    (hxOut : hasAnyMarker x.text altExitMarkers = true)
    (hxNoIn : hasAnyMarker x.text altEnterMarkers = false) :
    (runChunks s (e :: mid ++ [x])).historyTop.length = s.historyTop.length ∧
    (runChunks s (e :: mid ++ [x])).historyBottom.length = s.historyBottom.length ∧
    (runChunks s (e :: mid ++ [x])).altHistoryMarker = none ∧
    (runChunks s (e :: mid ++ [x])).inAlternateScreen = false := by
  have hsplit : runChunks s (e :: mid ++ [x]) =
      processChunk (runChunks (processChunk s e) mid) x := by
    simp [runChunks, List.foldl_append]
  have hE := processChunk_enter s e hePureT hePureB heIn heNoOut
  have hE1 : (processChunk s e).historyTop.length ≤ (processChunk s e).maxHist := by
    rw [hE.1, hE.2.2.1]
    exact hTopLe
  have hE2 : (processChunk s e).historyBottom.length ≤ (processChunk s e).maxHist := by
    rw [hE.2.1, hE.2.2.1]
    exact hBotLe
  have hMidRes := runChunks_noAlt mid (processChunk s e) hMid hE1 hE2
  set tMid := runChunks (processChunk s e) mid with htMid
  have hMarker : tMid.altHistoryMarker =
      some (s.historyTop.length, s.historyBottom.length) := by
    rw [hMidRes.1, hE.2.2.2]
  have hX := processChunk_exit tMid x s.historyTop.length s.historyBottom.length
    hxOut hxNoIn hMarker
  have hTmax : tMid.maxHist = s.maxHist := by
    rw [hMidRes.2.1, hE.2.2.1]
  have hTopGe : s.historyTop.length ≤ tMid.historyTop.length := by
    calc s.historyTop.length = (processChunk s e).historyTop.length := by rw [hE.1]
      _ ≤ tMid.historyTop.length := hMidRes.2.2.1
  have hTopCap : tMid.historyTop.length ≤ tMid.maxHist := by
    rw [hTmax]
    exact hMidRes.2.2.2.1.trans_eq hE.2.2.1
  have hBotGe : s.historyBottom.length ≤ tMid.historyBottom.length := by
    calc s.historyBottom.length = (processChunk s e).historyBottom.length := by rw [hE.2.1]
      _ ≤ tMid.historyBottom.length := hMidRes.2.2.2.2.1
  have hBotCap : tMid.historyBottom.length ≤ tMid.maxHist := by
    rw [hTmax]
    exact hMidRes.2.2.2.2.2.trans_eq hE.2.2.1
  have hTopFin := addRows_bounds tMid.maxHist x.newTop tMid.historyTop hTopCap
  have hBotFin := addRows_bounds tMid.maxHist x.newBottom tMid.historyBottom hBotCap
  rw [hsplit]
  refine ⟨?_, ?_, hX.2.2.1, hX.2.2.2⟩
  · rw [hX.1, List.length_take]
    exact Nat.min_eq_left (hTopGe.trans hTopFin.2)
  · rw [hX.2.1, List.length_take]
    exact Nat.min_eq_left (hBotGe.trans hBotFin.2)

/-- Witness for C1: the concrete ledger with two above-rows and one
below-row survives an enter / append / exit round trip with exactly those
counts. -/
theorem altScreen_roundTrip_witness :
    sampleLedger.historyTop.length ≤ sampleLedger.maxHist ∧
    sampleLedger.historyBottom.length ≤ sampleLedger.maxHist ∧
    enterChunk.newTop = [] ∧ enterChunk.newBottom = [] ∧
    hasAnyMarker enterChunk.text altEnterMarkers = true ∧
    hasAnyMarker enterChunk.text altExitMarkers = false ∧
    (∀ c ∈ [bodyChunk], hasAnyMarker c.text altEnterMarkers = false ∧
      hasAnyMarker c.text altExitMarkers = false) ∧
    hasAnyMarker exitChunk.text altExitMarkers = true ∧
    hasAnyMarker exitChunk.text altEnterMarkers = false ∧
    ((runChunks sampleLedger (enterChunk :: [bodyChunk] ++ [exitChunk])).historyTop.length =
        sampleLedger.historyTop.length ∧
      (runChunks sampleLedger (enterChunk :: [bodyChunk] ++ [exitChunk])).historyBottom.length =
        sampleLedger.historyBottom.length ∧
      (runChunks sampleLedger (enterChunk :: [bodyChunk] ++ [exitChunk])).altHistoryMarker = none ∧
      (runChunks sampleLedger (enterChunk :: [bodyChunk] ++ [exitChunk])).inAlternateScreen = false) :=
  ⟨by decide, by decide, by decide, by decide, by decide, by decide, by decide,
    by decide, by decide,
    altScreen_roundTrip sampleLedger enterChunk [bodyChunk] exitChunk
      (by decide) (by decide) (by decide) (by decide) (by decide) (by decide)
      (by decide) (by decide) (by decide)⟩

end RexTerm

namespace RexTerm

/-! ## Palette resolution -/

/-- C5: indices 16-231 resolve to the 6×6×6 cube over the levels
`[0, 95, 135, 175, 215, 255]` (r outermost, b innermost), indices 232-255
to the grayscale ramp `8 + 10·step`; in particular 196 is `#ff0000` and
244 is `#808080`. -/
theorem xterm_palette_resolution :
    ((List.range 6).all fun ri => (List.range 6).all fun gi => (List.range 6).all fun bi =>
        Palette.xtermPalette (16 + 36 * ri + 6 * gi + bi)
          == some (Palette.hexColor (Palette.colorSteps.getD ri 0)
              (Palette.colorSteps.getD gi 0) (Palette.colorSteps.getD bi 0))) = true
    ∧ ((List.range 24).all fun i =>
        Palette.xtermPalette (232 + i)
          == some (Palette.hexColor (8 + 10 * i) (8 + 10 * i) (8 + 10 * i))) = true
    ∧ Palette.xtermPalette 196 = some "#ff0000"
    ∧ Palette.xtermPalette 244 = some "#808080" :=
  ⟨by decide, by decide, by decide, by decide⟩

/-! ## Arrow-key encoding -/

open Keys in
/-- C2: in application keypad mode an arrow key emits the SS3 form
`ESC O` plus its letter; in normal mode it emits `ESC [` plus the letter
when the modifier combination is trivial and
`ESC [ 1 ; param letter` with `param = 1 + shift + 2·alt + 4·ctrl`
otherwise; in particular Shift+Up in normal mode emits `ESC [1;2A` and
plain Up in application mode emits `ESC OA`. -/
theorem arrow_key_encoding :
    (∀ (k : ArrowKey) (s a c : Bool),
      encodeArrowKey true ⟨s, a, c⟩ k = "\x1bO" ++ arrowMapNormal k ∧
      encodeArrowKey false ⟨s, a, c⟩ k =
        (if 1 + (if s then 1 else 0) + (if a then 2 else 0) + (if c then 4 else 0) = 1 then
          "\x1b[" ++ arrowMapNormal k
        else
          "\x1b[1;" ++ Nat.repr (1 + (if s then 1 else 0) + (if a then 2 else 0)
            + (if c then 4 else 0)) ++ arrowMapNormal k)) ∧
    encodeArrowKey false ⟨true, false, false⟩ .up = "\x1b[1;2A" ∧
    encodeArrowKey true noMods .up = "\x1bOA" := by
  refine ⟨?_, by decide, by decide⟩
  intro k s a c
  cases k <;> cases s <;> cases a <;> cases c <;> exact ⟨by decide, by decide⟩

open Keys in
/-- C8: with application keypad mode on, the arrow, Home and End
encodings ignore the modifier set entirely: every modifier combination
yields the plain SS3 sequence (Shift+Up gives `ESC OA`, Ctrl+Home gives
`ESC OH`). -/
theorem application_mode_ignores_modifiers :
    (∀ (m : KeyMods) (k : ArrowKey),
      encodeArrowKey true m k = arrowMapApp k ∧
      encodeHomeKey true m = "\x1bOH" ∧
      encodeEndKey true m = "\x1bOF") ∧
    encodeArrowKey true ⟨true, false, false⟩ .up = "\x1bOA" ∧
    encodeHomeKey true ⟨false, false, true⟩ = "\x1bOH" :=
  ⟨fun _ _ => ⟨rfl, rfl, rfl⟩, rfl, rfl⟩

/-! ## Render idempotence -/

open Render in
/-- C3: `_render_screen` assigns no state, so rendering the state it
leaves behind renders the same state: two successive calls with no feed
in between produce byte-identical plain text and HTML. -/
theorem render_idempotent (baseFg baseBg : String) (st : ScreenState) :
    (renderScreenCall baseFg baseBg (renderScreenCall baseFg baseBg st).1).2 =
      (renderScreenCall baseFg baseBg st).2 := rfl

/-! ## Geometry synchronisation -/

open Geom in
/-- C9: `TerminalEmulator.resize` caches the requested dimensions before
attempting either collaborator resize, so even when the PTY or screen
call fails the cache holds the new values, and a subsequent
`update_terminal_size` computing the same dimensions passes its no-op
check and never retries (the failed collaborator keeps its stale size). -/
theorem resize_caches_unconditionally (s : TermGeom) (vw vh cw ch : Nat)
    (ptyOk screenOk ptyOk2 screenOk2 : Bool) :
    (termResize s (computeNewCols vw cw) (computeNewRows vh ch) ptyOk screenOk).cols =
      computeNewCols vw cw ∧
    (termResize s (computeNewCols vw cw) (computeNewRows vh ch) ptyOk screenOk).rows =
      computeNewRows vh ch ∧
    (termResize s (computeNewCols vw cw) (computeNewRows vh ch) ptyOk screenOk).ptyCols =
      (if ptyOk then computeNewCols vw cw else s.ptyCols) ∧
    updateTerminalSize
        (termResize s (computeNewCols vw cw) (computeNewRows vh ch) ptyOk screenOk)
        vw vh cw ch ptyOk2 screenOk2 =
      termResize s (computeNewCols vw cw) (computeNewRows vh ch) ptyOk screenOk := by
  refine ⟨rfl, rfl, rfl, ?_⟩
  unfold updateTerminalSize
  split
  · rfl
  · simp only [termResize]
    split
    · rename_i hne
      rcases hne with h | h
      · exact absurd rfl h
      · exact absurd rfl h
    · rfl

end RexTerm

namespace RexTerm.Pump

/-! ## Pump shutdown sequencing -/

theorem pumpLoop_no_cb (events : List PumpEvent) :
    ∀ (st : PumpState), PumpAct.exitCb ∉ (pumpLoop events st).2 := by
  induction events with
  | nil =>
    intro st
    simp [pumpLoop]
  | cons e rest ih =>
    intro st
    simp only [pumpLoop]
    split
    · simp
    · split
      · simp
      · split
        · split
          · simp
          · simp
        · rename_i s stillRunning
          split
          · exact ih _
          · split
            · simp only [List.mem_cons]
              rintro (h | h)
              · exact absurd h (by simp)
              · exact ih _ h
            · exact ih _

/-- C6 counterexample: a pump run ended by a read failure with the
process still alive flushes the buffered byte but never signals the
registered exit callback — zero signals, not one. -/
theorem pump_exit_callback_missed :
    pumpRun readErrorEvents pumpStart true true = [PumpAct.emit "x"] ∧
    (pumpRun readErrorEvents pumpStart true true).count PumpAct.exitCb = 0 :=
  ⟨by decide, by decide⟩

/-- C6 amended: on every pump run the remaining non-empty buffer is
flushed after the loop and before the callback check, and the exit
callback is signalled at most once — exactly once when the process is
dead at the final liveness check and a callback is registered, zero
times otherwise. -/
theorem pump_shutdown_sequencing (events : List PumpEvent) (st0 : PumpState)
    (aliveAtEnd cbReg : Bool) :
    pumpRun events st0 aliveAtEnd cbReg =
      ((pumpLoop events st0).2
        ++ (if (pumpLoop events st0).1.buffer ≠ "" then
              [PumpAct.emit (pumpLoop events st0).1.buffer] else []))
      ++ (if aliveAtEnd = false ∧ cbReg = true then [PumpAct.exitCb] else []) ∧
    PumpAct.exitCb ∉ (pumpLoop events st0).2 ∧
    (pumpRun events st0 aliveAtEnd cbReg).count PumpAct.exitCb =
      (if aliveAtEnd = false ∧ cbReg = true then 1 else 0) := by
  refine ⟨rfl, pumpLoop_no_cb events st0, ?_⟩
  have h1 : ((pumpLoop events st0).2).count PumpAct.exitCb = 0 :=
    List.count_eq_zero.mpr (pumpLoop_no_cb events st0)
  have h2 : (if (pumpLoop events st0).1.buffer ≠ "" then
      [PumpAct.emit (pumpLoop events st0).1.buffer] else []).count PumpAct.exitCb = 0 := by
    split <;> simp
  show (((pumpLoop events st0).2 ++ _) ++ _).count PumpAct.exitCb = _
  rw [List.count_append, List.count_append, h1, h2]
  split <;> simp

/-! ## Buffering latency -/

theorem pumpReads_delay (sched : List (Nat × String)) :
    ∀ (buf lastEmit prev : Nat) (firstT : Option Nat),
      validSchedule prev sched = true →
      lastEmit ≤ prev →
      prev - lastEmit < bufferTimeThreshold →
      (∀ t0, firstT = some t0 → lastEmit ≤ t0) →
      ∀ rec ∈ pumpReads sched (buf, lastEmit, firstT),
        rec.flushTime - rec.firstByteTime < 2 * bufferTimeThreshold := by
  induction sched with
  | nil =>
    intro buf lastEmit prev firstT _ _ _ _ rec hrec
    simp [pumpReads] at hrec
  | cons e rest ih =>
    obtain ⟨t, s⟩ := e
    intro buf lastEmit prev firstT hv h1 h2 h3 rec hrec
    simp only [validSchedule, Bool.and_eq_true, decide_eq_true_eq, beq_iff_eq] at hv
    obtain ⟨⟨⟨hlt, hgap⟩, hlen⟩, hvrest⟩ := hv
    have hsne : ¬ s = "" := by
      intro h
      rw [h] at hlen
      simp at hlen
    have hth : bufferTimeThreshold = 5000 := rfl
    simp only [pumpReads, if_neg hsne] at hrec
    by_cases hf : flushCheck (buf + s.length) lastEmit t = true
    · rw [if_pos hf] at hrec
      rcases List.mem_cons.mp hrec with hq | hq
      · subst hq
        cases firstT with
        | none =>
          simp only [Option.getD]
          omega
        | some t0 =>
          have ht0 := h3 t0 rfl
          simp only [Option.getD]
          omega
      · exact ih 0 t t none hvrest (Nat.le_refl t) (by omega)
          (fun t0 h => by simp at h) rec hq
    · rw [if_neg hf] at hrec
      have hnof : t - lastEmit < bufferTimeThreshold := by
        simp only [flushCheck, Bool.or_eq_true, decide_eq_true_eq] at hf
        push_neg at hf
        have hadj : (if bufferSizeThreshold < 2 * (buf + s.length) then
            min bufferTimeThreshold burstTimeThreshold else bufferTimeThreshold) ≤
              bufferTimeThreshold := by
          split
          · exact Nat.min_le_left _ _
          · exact Nat.le_refl _
        omega
      refine ih (buf + s.length) lastEmit t (some (firstT.getD t)) hvrest
        (h1.trans (Nat.le_of_lt hlt)) hnof ?_ rec hrec
      intro t0 ht0
      cases firstT with
      | none =>
        simp only [Option.getD, Option.some.injEq] at ht0
        omega
      | some t1 =>
        simp only [Option.getD, Option.some.injEq] at ht0
        subst ht0
        exact h3 t1 rfl

/-- C7 counterexample: under the claimed schedule family (single-byte
reads, consecutive reads spaced below the time threshold) the pump can
leave the first unflushed byte waiting longer than the time threshold:
here the only flush happens 9780 µs after the byte arrived, with the
threshold at 5000 µs. -/
theorem buffering_latency_exceeds_threshold :
    validSchedule 0 starvedSchedule = true ∧
    pumpReads starvedSchedule (0, 0, none) = [⟨9880, 100⟩] ∧
    bufferTimeThreshold < 9880 - 100 :=
  ⟨by decide, by decide, by decide⟩

/-- C7 amended: the flush timer measures the time since the last flush,
not since the first unflushed byte, so under single-byte reads spaced
below the time threshold every flush happens within twice the time
threshold of the arrival of its oldest byte (and a flush fires whenever
the size threshold or the adjusted time threshold is reached at a read). -/
theorem buffering_liveness_twice_threshold (start : Nat) (sched : List (Nat × String))
    (hv : validSchedule start sched = true) :
    ∀ rec ∈ pumpReads sched (0, start, none),
      rec.flushTime - rec.firstByteTime < 2 * bufferTimeThreshold :=
  pumpReads_delay sched 0 start start none hv (Nat.le_refl start)
    (by have hth : bufferTimeThreshold = 5000 := rfl; omega)
    (fun t0 h => by simp at h)

/-- Witness for the amended C7 bound: on the concrete starved schedule
the single flush arrives 9780 µs after its oldest byte, within the
doubled 10000 µs bound. -/
theorem buffering_liveness_twice_threshold_witness :
    validSchedule 0 starvedSchedule = true ∧
    (∀ rec ∈ pumpReads starvedSchedule (0, 0, none),
      rec.flushTime - rec.firstByteTime < 2 * bufferTimeThreshold) :=
  ⟨by decide, buffering_liveness_twice_threshold 0 starvedSchedule (by decide)⟩

end RexTerm.Pump

namespace RexTerm.Pump

/-- The instrumented read view agrees with the pump loop: over a schedule
of healthy reads, `pumpLoop` emits exactly one chunk per flush recorded
by `pumpReads`, whatever the instrumentation state. -/
theorem pumpLoop_reads_length (sched : List (Nat × String)) :
    ∀ (b : String) (lastEmit : Nat) (f : Option Nat),
      ((pumpLoop (sched.map readEvent) ⟨b, lastEmit, true⟩).2).length =
        (pumpReads sched (b.length, lastEmit, f)).length := by
  induction sched with
  | nil =>
    intro b lastEmit f
    rfl
  | cons e rest ih =>
    obtain ⟨t, s⟩ := e
    intro b lastEmit f
    simp only [List.map_cons, pumpLoop, pumpReads, readEvent, Bool.not_true,
      Bool.and_self, Bool.false_eq_true, if_false]
    split
    · exact ih b lastEmit f
    · rw [String.length_append] at *
      split
      · simp only [List.length_cons]
        rw [ih "" t none]
        rfl
      · rw [ih (b ++ s) lastEmit (some (f.getD t))]
        rw [String.length_append]

end RexTerm.Pump
